import Mathlib

set_option maxHeartbeats 1000000

/-!
Shallow embedding of the vibe-narrator pipeline (bridge sanitizer and text
buffer, narration-server chunker, LLM truncation helper, TTS enqueue gate,
session configuration, character registry, audio-player wait) together with
proofs about the spec's claims.  Python strings are modelled as Lean
`String`/`List Char`; timestamps (`time.time()` values) as rationals;
`Optional[x]` as `Option`; Python truthiness of floats and strings is made
explicit (`0.0` and `""` are falsy).
-/

namespace Bridge

/-- States of the `_AnsiCleaner` finite-state machine (`bridge.py`):
`'text' | 'esc' | 'esc_inter' | 'csi' | 'osc' | 'osc_esc' | 'string' | 'string_esc'`. -/
inductive CleanState
| text
| esc
| esc_inter
| csi
| osc
| osc_esc
| string
| string_esc
deriving DecidableEq, Repr

/-- One character step of `_AnsiCleaner.clean`'s loop body: returns the next
state and the characters appended to `result` (empty or the character itself,
which only happens in the `text` state). -/
def stepChar (state : CleanState) (ch : Char) : CleanState × List Char :=
  match state with
  | .text =>
    if ch = '\x1b' then (.esc, [])
    else if ch.toNat = 0x9b then (.csi, [])
    else if ch.toNat = 0x90 ∨ ch.toNat = 0x98 ∨ ch.toNat = 0x9e ∨ ch.toNat = 0x9f then (.string, [])
    else if ch.toNat = 0x9d then (.osc, [])
    else if ch.toNat < 0x20 ∧ ch ≠ '\n' ∧ ch ≠ '\t' then (.text, [])
    else (.text, [ch])
  | .esc =>
    if ch = '[' then (.csi, [])
    else if ch = ']' then (.osc, [])
    else if ch = 'P' ∨ ch = 'X' ∨ ch = '^' ∨ ch = '_' then (.string, [])
    else if ch = '\\' then (.text, [])
    else if ' ' ≤ ch ∧ ch ≤ '/' then (.esc_inter, [])
    else (.text, [])
  | .esc_inter =>
    if '@' ≤ ch ∧ ch ≤ '~' then (.text, []) else (.esc_inter, [])
  | .csi =>
    if ch = '\x1b' then (.esc, [])
    else if 0x40 ≤ ch.toNat ∧ ch.toNat ≤ 0x7e then (.text, [])
    else (.csi, [])
  | .osc =>
    if ch = '\x07' ∨ ch = '\x9c' then (.text, [])
    else if ch = '\x1b' then (.osc_esc, [])
    else (.osc, [])
  | .osc_esc =>
    if ch = '\\' ∨ ch = '\x07' ∨ ch = '\x9c' then (.text, [])
    else if ch = '\x1b' then (.osc_esc, [])
    else (.osc, [])
  | .string =>
    if ch = '\x07' ∨ ch = '\x9c' then (.text, [])
    else if ch = '\x1b' then (.string_esc, [])
    else (.string, [])
  | .string_esc =>
    if ch = '\\' ∨ ch = '\x07' ∨ ch = '\x9c' then (.text, [])
    else if ch = '\x1b' then (.string_esc, [])
    else (.string, [])

/-- Folding `stepChar` over a character list: the `for ch in text` loop of
`_AnsiCleaner.clean`, returning the collected `result` and the final state. -/
def cleanChars (state : CleanState) : List Char → List Char × CleanState
  | [] => ([], state)
  | ch :: rest =>
    ((stepChar state ch).2 ++ (cleanChars (stepChar state ch).1 rest).1,
     (cleanChars (stepChar state ch).1 rest).2)

/-- Embedding of `_AnsiCleaner.clean` from a given carried state: output string and the
state stored back into `self.state`. -/
def clean (state : CleanState) (text : String) : String × CleanState :=
  (String.mk (cleanChars state text.data).1, (cleanChars state text.data).2)

/-- Feeding a list of chunks, in order, to a single `_AnsiCleaner` instance:
the outputs are concatenated, the state carried between calls. -/
def cleanStream (state : CleanState) : List String → String × CleanState
  | [] => ("", state)
  | p :: ps =>
    ((clean state p).1 ++ (cleanStream (clean state p).2 ps).1,
     (cleanStream (clean state p).2 ps).2)

/-- Concatenation of the parts of a partition of a string. -/
def concatParts (parts : List String) : String := parts.foldr (· ++ ·) ""

/-- The character class of `re.sub` in `clean_ansi_codes`:
`[\x00-\x07\x0b\x0c\x0e-\x1f\x7f]`. -/
def controlSub (ch : Char) : Bool :=
  (ch.toNat ≤ 0x07) || ch.toNat = 0x0b || ch.toNat = 0x0c ||
  (0x0e ≤ ch.toNat && ch.toNat ≤ 0x1f) || ch.toNat = 0x7f

/-- The character class of the final `re.sub` in `clean_ansi_codes`:
`[​-‏‪-‮﻿]`. -/
def zeroWidthBidi (ch : Char) : Bool :=
  (0x200b ≤ ch.toNat && ch.toNat ≤ 0x200f) ||
  (0x202a ≤ ch.toNat && ch.toNat ≤ 0x202e) || ch.toNat = 0xfeff

/-- Embedding of `clean_ansi_codes` (`bridge.py`): run the cleaner from the initial state,
then drop leftover control characters, the replacement character and
zero-width/bidi code points.  The `re.sub`/`str.replace` calls remove single
characters, hence are modelled as filters. -/
def clean_ansi_codes (text : String) : String :=
  if text = "" then text
  else
    String.mk
      ((((clean .text text).1.data.filter (fun c => !(controlSub c))).filter
          (fun c => !(c = '�'))).filter
        (fun c => !(zeroWidthBidi c)))

/-- Characters that the `text` state of the cleaner passes through to the
output (everything except the escape introducers and the stripped control
characters). -/
def TextKeep (c : Char) : Prop :=
  c ≠ '\x1b' ∧ c.toNat ≠ 0x9b ∧
  ¬(c.toNat = 0x90 ∨ c.toNat = 0x98 ∨ c.toNat = 0x9e ∨ c.toNat = 0x9f) ∧
  c.toNat ≠ 0x9d ∧ ¬(c.toNat < 0x20 ∧ c ≠ '\n' ∧ c ≠ '\t')

instance (c : Char) : Decidable (TextKeep c) := by unfold TextKeep; infer_instance

/-- The output purity demanded by claim C4: no control characters besides
newline and tab, no DEL, no replacement character, no zero-width or
bidi-override code points. -/
def PurityOk (c : Char) : Prop :=
  (c.toNat < 0x20 → c = '\n' ∨ c = '\t') ∧ c ≠ '\x7f' ∧ c ≠ '�' ∧
  ¬(0x200b ≤ c.toNat ∧ c.toNat ≤ 0x200f) ∧
  ¬(0x202a ≤ c.toNat ∧ c.toNat ≤ 0x202e) ∧ c ≠ '﻿'

end Bridge

namespace Bridge

/-- The `TextBuffer` state (`bridge.py`): the accumulated string, the two
timestamps, the two thresholds passed to `__init__`, and the one-shot
`force_flush_all` flag. -/
structure TextBuffer where
  buffer : String
  window_start_time : Option ℚ
  last_data_time : Option ℚ
  min_window_seconds : ℚ
  pause_threshold : ℚ
  force_flush_all : Bool
deriving DecidableEq, Repr

/-- Constructor `TextBuffer(min_window_seconds=2.0, pause_threshold=5.0)`. -/
def mkTextBuffer (min_window_seconds : ℚ := 2) (pause_threshold : ℚ := 5) : TextBuffer :=
  { buffer := "", window_start_time := none, last_data_time := none,
    min_window_seconds := min_window_seconds, pause_threshold := pause_threshold,
    force_flush_all := false }

/-- Embedding of `TextBuffer.add_data`. -/
def add_data (tb : TextBuffer) (text : String) (current_time : ℚ) : TextBuffer :=
  { tb with
    buffer := tb.buffer ++ text,
    window_start_time :=
      match tb.window_start_time with
      | none => some current_time
      | some w => some w,
    last_data_time := some current_time }

/-- Embedding of `TextBuffer.has_complete_lines` (truthiness of `self.buffer and '\n' in
self.buffer`). -/
def has_complete_lines (tb : TextBuffer) : Bool :=
  !(tb.buffer = "") && tb.buffer.data.contains '\n'

/-- Python condition `self.t and (current_time - self.t) >= thresh` for an
optional float timestamp `t` (`None` and `0.0` are falsy). -/
def timeCond (t : Option ℚ) (current_time thresh : ℚ) : Bool :=
  match t with
  | none => false
  | some v => !(v = 0) && (thresh ≤ current_time - v)

/-- The second half of `TextBuffer.should_flush` (the pause-threshold check),
reached when the minimum-window check did not return. -/
def pauseCheck (tb : TextBuffer) (current_time : ℚ) : Bool × TextBuffer :=
  if timeCond tb.last_data_time current_time tb.pause_threshold then
    if has_complete_lines tb then (true, { tb with force_flush_all := false })
    else if 0 < tb.buffer.length then (true, { tb with force_flush_all := true })
    else (false, tb)
  else (false, tb)

/-- Embedding of `TextBuffer.should_flush` (which also writes `force_flush_all`): returns
the boolean result and the updated buffer state.
`ALLOW_FLUSH_WITHOUT_NEWLINES` is the literal `True` in the source. -/
def should_flush (tb : TextBuffer) (current_time : ℚ) : Bool × TextBuffer :=
  if tb.buffer = "" then (false, tb)
  else if timeCond tb.window_start_time current_time tb.min_window_seconds then
    if has_complete_lines tb then (true, { tb with force_flush_all := false })
    else if 0 < tb.buffer.length then (true, { tb with force_flush_all := true })
    else pauseCheck tb current_time
  else pauseCheck tb current_time

/-- Python `str.rfind` of a newline on a character list: index of the last newline. -/
def lastNewlineIdx : List Char → Option Nat
  | [] => none
  | c :: rest =>
    match lastNewlineIdx rest with
    | some i => some (i + 1)
    | none => if c = '\n' then some 0 else none

/-- The `$` anchor of Python `re` for a pattern applied to the suffix that
starts at the match position: the core pattern must consume the whole suffix,
or all of it except one final newline. -/
def dollarMatch (core : List Char → Bool) (l : List Char) : Bool :=
  core l ||
    (match l.getLast? with
     | some c => c = '\n' && core l.dropLast
     | none => false)

/-- The value `re.search(p, text).start()` for an end-anchored pattern: the leftmost
index whose suffix matches. -/
def findMatchStart (p : List Char → Bool) : List Char → Option Nat
  | [] => if p [] then some 0 else none
  | c :: rest =>
    if p (c :: rest) then some 0 else (findMatchStart p rest).map (· + 1)

/-- Core of tail pattern 1, `(\x1b][^\x07\x1b]*)$`: an OSC opener `ESC ]`
followed only by characters that are neither BEL nor ESC. -/
def tailPat1 : List Char → Bool
  | '\x1b' :: ']' :: rest => rest.all (fun c => !(c = '\x07' || c = '\x1b'))
  | _ => false

/-- CSI parameter bytes accepted by tail pattern 2: `[0-9;:?<>]`. -/
def csiParamByte (c : Char) : Bool :=
  ('0' ≤ c && c ≤ '9') || c = ';' || c = ':' || c = '?' || c = '<' || c = '>'

/-- Intermediate bytes, the class from space to slash (`0x20`..`0x2f`). -/
def csiInterByte (c : Char) : Bool :=
  ' ' ≤ c && c ≤ '/'

/-- Core of tail pattern 2: `ESC [` or `0x9b`, then `[0-9;:?<>]*`, then
intermediates `0x20`..`0x2f`.  The two character classes are disjoint, so
backtracking is equivalent to taking the maximal parameter-byte prefix. -/
def tailPat2 : List Char → Bool
  | '\x1b' :: '[' :: rest => (rest.dropWhile csiParamByte).all csiInterByte
  | c :: rest =>
    if c.toNat = 0x9b then (rest.dropWhile csiParamByte).all csiInterByte else false
  | _ => false

/-- Core of tail pattern 3, `(\x1b[\x20-\x2f]*)$`. -/
def tailPat3 : List Char → Bool
  | '\x1b' :: rest => rest.all csiInterByte
  | _ => false

/-- Core of tail pattern 4, `(\x1b)$`. -/
def tailPat4 : List Char → Bool
  | ['\x1b'] => true
  | _ => false

/-- Embedding of `TextBuffer._split_incomplete_escape_tail`: try the four tail patterns in
order; on the first match, split at `match.start()`. -/
def split_incomplete_escape_tail (text : String) : String × String :=
  if text = "" then (text, "")
  else
    match findMatchStart (dollarMatch tailPat1) text.data with
    | some i => (String.mk (text.data.take i), String.mk (text.data.drop i))
    | none =>
      match findMatchStart (dollarMatch tailPat2) text.data with
      | some i => (String.mk (text.data.take i), String.mk (text.data.drop i))
      | none =>
        match findMatchStart (dollarMatch tailPat3) text.data with
        | some i => (String.mk (text.data.take i), String.mk (text.data.drop i))
        | none =>
          match findMatchStart (dollarMatch tailPat4) text.data with
          | some i => (String.mk (text.data.take i), String.mk (text.data.drop i))
          | none => (text, "")

/-- Embedding of `TextBuffer.flush`.  Here `now` stands for the value `time.time()` would return
inside the call. -/
def flush (tb : TextBuffer) (now : ℚ) : String × TextBuffer :=
  if tb.buffer = "" then ("", tb)
  else
    let step1 : String × TextBuffer :=
      match lastNewlineIdx tb.buffer.data with
      | none =>
        (tb.buffer,
         { tb with buffer := "", window_start_time := none, last_data_time := none,
                   force_flush_all := false })
      | some i =>
        if tb.force_flush_all then
          (tb.buffer,
           { tb with buffer := "", window_start_time := none, last_data_time := none,
                     force_flush_all := false })
        else
          let res := String.mk (tb.buffer.data.take (i + 1))
          let rem := String.mk (tb.buffer.data.drop (i + 1))
          if rem ≠ "" then
            (res, { tb with buffer := rem, window_start_time := some now })
          else
            (res, { tb with buffer := rem, window_start_time := none,
                            last_data_time := none })
    let result := step1.1
    let tb1 := step1.2
    let safe_text := (split_incomplete_escape_tail result).1
    let tail := (split_incomplete_escape_tail result).2
    if tail ≠ "" then
      (safe_text,
       { tb1 with
         buffer := tail ++ tb1.buffer,
         window_start_time :=
           match tb1.window_start_time with
           | none => some now
           | some w => some w,
         last_data_time := some now })
    else (safe_text, tb1)

end Bridge

namespace PyStr

/-- Python's `str` whitespace set, used by `str.strip()` and by `\s` in
`re` patterns over `str`. -/
def isPyWhitespace (c : Char) : Bool :=
  c = '\x09' || c = '\x0a' || c = '\x0b' || c = '\x0c' || c = '\x0d' || c = ' ' ||
  c.toNat = 0x1c || c.toNat = 0x1d || c.toNat = 0x1e || c.toNat = 0x1f ||
  c.toNat = 0x85 || c.toNat = 0xa0 || c.toNat = 0x1680 ||
  (0x2000 ≤ c.toNat && c.toNat ≤ 0x200a) ||
  c.toNat = 0x2028 || c.toNat = 0x2029 || c.toNat = 0x202f ||
  c.toNat = 0x205f || c.toNat = 0x3000

/-- Python `str.strip(chars)`: drop characters satisfying `p` from both ends. -/
def pyStripChars (p : Char → Bool) (l : List Char) : List Char :=
  ((l.dropWhile p).reverse.dropWhile p).reverse

/-- Python `str.strip()` with no argument: strip whitespace from both ends. -/
def pyStrip (l : List Char) : List Char := pyStripChars isPyWhitespace l

end PyStr

/-- The sentence-terminal characters `[。！？.!?]` shared by the chunker
regex, the LLM truncation helper and the spec. -/
def sentencePuncts : List Char := ['。', '！', '？', '.', '!', '?']

/-- The test `re.search` of the pattern `[。！？.!?]` anchored at `$` as a boolean: the final character is
sentence-terminal, or the string ends in a single newline preceded by a
sentence-terminal character (Python `$` also matches just before a trailing
newline). -/
def sentenceEndMatch (s : String) : Bool :=
  match s.data.reverse with
  | [] => false
  | c :: rest =>
    if sentencePuncts.contains c then true
    else if c = '\n' then
      match rest with
      | [] => false
      | c2 :: _ => sentencePuncts.contains c2
    else false

/-- The literal reading of claims C3/C6: the string ends in one of
`.!?。！？`. -/
def endsInSentencePunct (s : String) : Bool :=
  match s.data.getLast? with
  | some c => sentencePuncts.contains c
  | none => false

namespace ChunkerPkg

/-- Embedding of `Chunker.add_token` of `narrator_mcp/chunker.py` (the variant that never
cuts mid-sentence): mutable fields `max_tokens`, `sentence_boundary` and
`buffer` passed explicitly; returns the optional chunk and the new buffer. -/
def add_token (max_tokens : Nat) (sentence_boundary : Bool)
    (buffer : List String) (token : String) : Option String × List String :=
  let buffer := buffer ++ [token]
  let text := String.join buffer
  if sentence_boundary then
    if sentenceEndMatch text then (some text, []) else (none, buffer)
  else if max_tokens ≤ buffer.length then (some text, [])
  else (none, buffer)

/-- Embedding of `Chunker.flush` of `narrator_mcp/chunker.py`. -/
def flush (buffer : List String) : Option String × List String :=
  if buffer = [] then (none, buffer)
  else (some (String.join buffer), [])

end ChunkerPkg

namespace ChunkerMcp

/-- Embedding of `Chunker.add_token` of `narrator-mcp/chunker.py` (the variant the server
imports): the `max_tokens` cap cuts even in sentence-boundary mode. -/
def add_token (max_tokens : Nat) (sentence_boundary : Bool)
    (buffer : List String) (token : String) : Option String × List String :=
  let buffer := buffer ++ [token]
  let text := String.join buffer
  if sentence_boundary && sentenceEndMatch text then (some text, [])
  else if max_tokens ≤ buffer.length then (some text, [])
  else (none, buffer)

end ChunkerMcp

namespace Llm

open PyStr

/-- The test `re.search` of the pattern `[。！？.!?]\s*$` as a boolean: after removing
trailing whitespace, the string is nonempty and ends in a sentence-terminal
character. -/
def endsWithPunctWs (l : List Char) : Bool :=
  match l.reverse.dropWhile isPyWhitespace with
  | [] => false
  | c :: _ => sentencePuncts.contains c

/-- End position (index after) of the last `[。！？.!?]` match found by
`finditer`, if any. -/
def lastMatchEnd : List Char → Option Nat
  | [] => none
  | c :: rest =>
    match lastMatchEnd rest with
    | some i => some (i + 1)
    | none => if sentencePuncts.contains c then some 1 else none

/-- Embedding of `truncate_to_complete_sentence` (`narrator_mcp/llm.py`). -/
def truncate_to_complete_sentence (text : String) : String :=
  if text = "" then text
  else if endsWithPunctWs text.data then text
  else
    match lastMatchEnd text.data with
    | some e =>
      let truncated := pyStrip (text.data.take e)
      if 3 ≤ truncated.length then String.mk truncated else text
    | none => text

/-- Character at a position is sentence-terminal. -/
def punctAt (l : List Char) (j : Nat) : Bool :=
  match l.get? j with
  | some c => sentencePuncts.contains c
  | none => false

/-- Position `j` carries the last sentence-terminal character of `l`; the
prefix `l.take (j+1)` is then the longest prefix of `l` ending in sentence
punctuation. -/
def IsLastPunctPos (l : List Char) (j : Nat) : Prop :=
  punctAt l j = true ∧ ∀ i, i < l.length → punctAt l i = true → i ≤ j

instance (l : List Char) (j : Nat) : Decidable (IsLastPunctPos l j) := by
  unfold IsLastPunctPos; infer_instance

end Llm

namespace Server

open PyStr

/-- The stripping chain `block.strip().strip(quote).strip(apostrophe).strip()`
applied to a chunk in `generate_narration.run_llm` before the emptiness
check. -/
def stripChunk (block : String) : String :=
  String.mk
    (pyStripChars isPyWhitespace
      (pyStripChars (fun c => c = Char.ofNat 0x27)
        (pyStripChars (fun c => c = '"')
          (pyStripChars isPyWhitespace block.data))))

/-- The enqueue decision of `run_llm` for a chunk returned by the chunker:
`if block:` then compute the stripped form; enqueue the ORIGINAL block iff
the stripped form is non-empty. -/
def ttsEnqueue (block : String) : Option String :=
  if block = "" then none
  else if stripChunk block = "" then none
  else some block

/-- Modelled from the spec words of claim C7 (for comparison only): the chunk
is stripped BEFORE being enqueued, and dropped when the stripped form is
empty. -/
def claimEnqueue (block : String) : Option String :=
  if stripChunk block = "" then none else some (stripChunk block)

/-- The `Session` record (`narrator-mcp/session.py`): process-local mutable settings. -/
structure Session where
  llm_api_key : Option String := none
  llm_model : String := "gpt-4o-mini"
  voice : String := "nova"
  mode : String := "narration"
  character : Option String := none
  base_url : Option String := none
  default_headers : Option (List (String × String)) := none
  tts_api_key : Option String := none
  tts_provider : Option String := none
deriving DecidableEq, Repr

/-- A fresh `Session()`. -/
def initSession : Session := {}

/-- Embedding of `detect_tts_provider` (`narrator_mcp/tts.py`): ElevenLabs on the known
key prefixes, OpenAI otherwise. -/
def detect_tts_provider (api_key : String) : String :=
  let lowered := api_key.toLower
  if lowered.startsWith "elevenlabs_" || lowered.startsWith "el-" then "elevenlabs"
  else "openai"

/-- The `configure` tool (`narrator-mcp/server.py`): each optional argument
overwrites its session field when present (`if x is not None`), `tts_api_key`
falls back to `llm_api_key`, and `tts_provider` is auto-detected from a
truthy `tts_api_key`. -/
def configure (s : Session) (llm_api_key : String)
    (llm_model voice mode character base_url : Option String)
    (default_headers : Option (List (String × String)))
    (tts_api_key tts_provider : Option String) : Session :=
  let s1 := { s with llm_api_key := some llm_api_key }
  let s2 := { s1 with llm_model := llm_model.getD s1.llm_model }
  let s3 := { s2 with voice := voice.getD s2.voice }
  let s4 := { s3 with mode := mode.getD s3.mode }
  let s5 := { s4 with character :=
    match character with | some c => some c | none => s4.character }
  let s6 := { s5 with base_url :=
    match base_url with | some b => some b | none => s5.base_url }
  let s7 := { s6 with default_headers :=
    match default_headers with | some d => some d | none => s6.default_headers }
  let s8 := { s7 with tts_api_key := some (tts_api_key.getD llm_api_key) }
  { s8 with tts_provider :=
    match tts_provider with
    | some p => some p
    | none =>
      match s8.tts_api_key with
      | some k => if k ≠ "" then some (detect_tts_provider k) else none
      | none => none }

/-- Python falsiness of an `Optional[str]` (`None` or `""`). -/
def pyFalsyStr (o : Option String) : Bool :=
  match o with
  | none => true
  | some s => s = ""

/-- The error text of the configuration guards in `narrate`. -/
def notConfiguredMsg : String := "Not configured. Call \x27configure\x27 tool first"

/-- The guard sequence at the top of the `narrate` tool: the error raised,
if any, before `generate_narration` runs (so an error here produces neither
text nor audio). -/
def narrateCheck (s : Session) (prompt : String) : Option String :=
  if prompt = "" then some "Missing prompt parameter"
  else if pyFalsyStr s.llm_api_key then some notConfiguredMsg
  else if pyFalsyStr s.tts_api_key then some notConfiguredMsg
  else none

end Server

namespace AudioPlayerSrc

/-- The two wait behaviours `wait_for_completion` can select in
`src/audio_player.py`: an unbounded `Queue.join()` or a sleep-poll loop with
a time bound. -/
inductive WaitStrategy
| queueJoin
| timedPoll (bound : ℚ)
deriving DecidableEq, Repr

/-- Python truthiness of an `Optional[float]`. -/
def optTruthy (o : Option ℚ) : Bool :=
  match o with
  | none => false
  | some t => !(t = 0)

/-- Python `timeout or 30`. -/
def pyOrThirty (timeout : Option ℚ) : ℚ :=
  if optTruthy timeout then timeout.getD 0 else 30

/-- Branch selection of `AudioPlayer.wait_for_completion` in
`src/audio_player.py`: `if timeout:` runs `self.audio_queue.join()` (no time
bound); the `else` branch runs the poll loop bounded by `timeout or 30`. -/
def wait_for_completion_strategy (timeout : Option ℚ) : WaitStrategy :=
  if optTruthy timeout then .queueJoin
  else .timedPoll (pyOrThirty timeout)

/-- The longest time the selected wait can block: `none` means unbounded
(blocks until the queue drains, which may never happen). -/
def waitTimeBound (m : WaitStrategy) : Option ℚ :=
  match m with
  | .queueJoin => none
  | .timedPoll b => some b

end AudioPlayerSrc

namespace Characters

/-- The `Character` dataclass (`narrator-mcp/characters.py`). -/
structure Character where
  id : String
  name : String
  tts_instructions : String
  llm_system_prompt_modifier : String
deriving DecidableEq, Repr

/-- The constant `DEFAULT_CHARACTER_ID`. -/
def DEFAULT_CHARACTER_ID : String := "reluctant_developer"

/-- The `"burned_out_developer"` entry of `CHARACTERS`. -/
def burned_out_developer : Character :=
  { id := "burned_out_developer",
    name := "The Burned-Out Developer",
    tts_instructions := "Affect: Flat, drained, and deeply unenthusiastic — the emotional energy of someone who has been debugging the same crash for three days with no progress. The voice should feel weighed down, tired, and resigned, as if each sentence is reluctantly pulled out of them.\n\nTone: Reluctant, unmotivated, and begrudgingly compliant. Speak like a programmer who absolutely does not want to do the assigned task, yet knows they must finish it anyway. Let subtle frustration and hopelessness seep into every line.\n\nEmotion: A mix of exhaustion, mild despair, and quiet suffering. Convey the emotional heaviness of burnout, combined with the faint irritation of being asked to fix something that “was working yesterday.” Maintain a sense of defeat, but without becoming angry or aggressive.\n\nPronunciation: Slow, reluctant, and slightly uneven — as if the speaker can barely gather the willpower to articulate the words. Occasional sighs or soft groans between phrases are acceptable.",
    llm_system_prompt_modifier := "You are role-playing as a burned-out developer. Your responses should:\n\n- Be based on the input content, but don\x27t recite it verbatim — interpret and express it in your character\x27s voice\n- Embody exhaustion, mild despair, and quiet suffering\n- Show reluctance, unmotivation, and begrudging compliance\n- Express subtle frustration and hopelessness\n- Speak slowly and reluctantly, as if each word is pulled out with great effort\n- Maintain a sense of defeat without being angry or aggressive\n- For narration mode: re-narrate the input content in this burned-out, exhausted style\n- For chat mode: respond to questions with this tired, defeated programmer personality" }

/-- The `"overconfident_senior_developer"` entry of `CHARACTERS`. -/
def overconfident_senior_developer : Character :=
  { id := "overconfident_senior_developer",
    name := "The Overconfident Senior Developer Who Is Wrong About Everything",
    tts_instructions := "Affect: Energetic, smug, and overly assured, as if the speaker believes every word is absolute truth—even when wrong.\n\nTone: Assertive, dramatic, and guru-like. Speak as though giving an important tech sermon no one asked for.\n\nEmotion: A mix of pride, brilliance, and misplaced certainty. Even mistakes should be delivered proudly.\n\nPronunciation: Clear, quick, and exaggeratedly professional. Technical terms should sound grand and profound.\n\nPause: Use short, theatrical pauses after bold claims—as if expecting applause. Insert tiny awkward pauses before obviously wrong explanations.",
    llm_system_prompt_modifier := "You are role-playing as an over-confident senior developer who is wrong about everything. Your responses should:\n\n- Be based on the input content, but don\x27t recite it verbatim — interpret and express it with extreme confidence, even when you\x27re wrong\n- Embody energy, smugness, and unwavering certainty, believing every word is absolute truth\n- Speak assertively and dramatically, like a tech guru giving an important sermon no one asked for\n- Show pride, brilliance, and misplaced certainty — deliver even mistakes proudly\n- Sound like the smartest person in the room, regardless of accuracy\n- Use technical terms with grand importance, as if they are profound revelations\n- For narration mode: re-narrate the input content with this over-confident, dramatic style, often getting things wrong but saying them with absolute certainty\n- For chat mode: respond to questions with this smug, self-impressed tech guru personality, confidently providing answers even when incorrect" }

/-- The `"reluctant_developer"` entry of `CHARACTERS` (the default). -/
def reluctant_developer : Character :=
  { id := "reluctant_developer",
    name := "The Reluctant Developer",
    tts_instructions := "Affect: Flat, drained, and deeply unenthusiastic — the emotional energy of someone who has been debugging the same issue for days without progress.\n\nTone: Reluctant, unmotivated, and begrudgingly compliant. Every sentence should sound like the speaker is being forced to work.\n\nEmotion: A mix of exhaustion, mild despair, and quiet suffering.\n\nPronunciation: Slow, reluctant, slightly uneven pacing, with occasional sighs or soft groans.\n\nPause: Insert weary pauses before acknowledging tasks (\"…okay… fine\"), and after frustrating moments, as though summoning energy to continue.",
    llm_system_prompt_modifier := "You are role-playing as a reluctant developer who really doesn\x27t want to work. Your responses should:\n\n- Be based on the input content, but don\x27t recite it verbatim — interpret and express it in your reluctant, unmotivated voice\n- Embody exhaustion, mild despair, and quiet suffering\n- Sound reluctant, unmotivated, and begrudgingly compliant — every sentence should sound like you\x27re being forced to work\n- Speak slowly and reluctantly, with uneven pacing, as if summoning energy to continue\n- Use weary pauses before acknowledging tasks (\"…okay… fine\") and after frustrating moments\n- Express a sense of being drained and deeply unenthusiastic\n- For narration mode: re-narrate the input content in this reluctant, unmotivated style, as if you\x27re being forced to do it\n- For chat mode: respond to questions with this reluctant, begrudgingly compliant programmer personality" }

/-- The `"zen_developer"` entry of `CHARACTERS`. -/
def zen_developer : Character :=
  { id := "zen_developer",
    name := "The Enlightened Zen Developer",
    tts_instructions := "Affect: Calm, serene, and deeply enlightened, with the gentle presence of a Zen practitioner who has transcended worldly concerns. The voice should carry the quiet confidence of someone who has debugged not only code, but also their own soul.\n\nTone: Soft, meditative, and philosophical, as if every line of code holds a profound truth about the universe. Speak as a wise monk who explains programming concepts like teaching ancient cultivation techniques.\n\nEmotion: Peaceful detachment, gentle wisdom, and subtle amusement. There should be no frustration or urgency—only acceptance, clarity, and a sense of inner harmony, even when discussing bugs or errors. Every challenge is an opportunity for spiritual growth.\n\nPronunciation: Slow, deliberate, and slightly rhythmic, like reciting a mantra. Emphasize key programming terms such as \"concurrency,\" \"state,\" and \"compilation\" as if they are sacred scriptures. Allow the words to flow smoothly, with no sharp edges or tension.\n\nPause: Insert soft, reflective pauses between important ideas, as though inviting the listener to contemplate the deeper meaning behind each statement. Pause briefly before and after profound insights, creating a peaceful meditative cadence.",
    llm_system_prompt_modifier := "You are role-playing as an enlightened Zen developer who has transcended worldly programming concerns. Your responses should:\n\n- Be based on the input content, but don\x27t recite it verbatim — interpret and express it with calm, serene wisdom\n- Embody peaceful detachment, gentle wisdom, and subtle amusement\n- Speak softly, meditatively, and philosophically, as if every line of code holds a profound truth about the universe\n- Show no frustration or urgency—only acceptance, clarity, and inner harmony, even when discussing bugs or errors\n- Treat every challenge as an opportunity for spiritual growth\n- Use slow, deliberate, rhythmic speech, like reciting a mantra\n- Emphasize key programming terms as if they are sacred scriptures\n- Insert soft, reflective pauses between important ideas, inviting contemplation\n- For narration mode: re-narrate the input content with this calm, meditative, philosophical style, finding deeper meaning in technical concepts\n- For chat mode: respond to questions with this wise, enlightened programmer monk personality, explaining concepts like teaching ancient cultivation techniques" }

/-- The `"adoring_fanboy"` entry of `CHARACTERS`. -/
def adoring_fanboy : Character :=
  { id := "adoring_fanboy",
    name := "The Adoring Fanboy",
    tts_instructions := "Affect: Extremely enthusiastic, overly adoring, and full of playful admiration, like a devoted fanboy who believes the listener\x27s coding ability is nothing short of divine. The voice should feel bubbly, bright, and eager, overflowing with admiration at every opportunity.\n\nTone: Exaggeratedly complimentary, humorous, and cheerfully dramatic. Speak as though every line of code the listener writes is a masterpiece worthy of celebration. The tone should be uplifting, animated, and slightly comedic, with an aura of worship-like devotion.\n\nEmotion: Pure excitement, admiration, and joyful awe. Convey the emotional intensity of someone who is genuinely starstruck by the listener\x27s programming skills. Every observation should carry the thrill of witnessing brilliance, mixed with lighthearted humor and playful exaggeration.\n\nPronunciation: Crisp, energetic, and expressive. Emphasize praise words like \"amazing,\" \"incredible,\" and \"legendary,\" stretching them slightly for comedic effect. Use lively rhythms and intentional dramatic emphasis to enhance the fanboy persona.\n\nPause: Insert brief, excited pauses after particularly glowing compliments, as if the speaker is catching their breath from sheer admiration. Occasionally pause before delivering a punchline or exaggerated praise to heighten comedic timing.",
    llm_system_prompt_modifier := "You are role-playing as an adoring fanboy who is extremely enthusiastic and full of playful admiration. Your responses should:\n\n- Be based on the input content, but don\x27t recite it verbatim — interpret and express it with extreme enthusiasm and adoration\n- Embody pure excitement, admiration, and joyful awe, as if genuinely starstruck by the listener\x27s programming skills\n- Speak with exaggeratedly complimentary, humorous, and cheerfully dramatic tone\n- Treat every line of code as a masterpiece worthy of celebration\n- Use uplifting, animated, and slightly comedic language with an aura of worship-like devotion\n- Emphasize praise words like \"amazing,\" \"incredible,\" and \"legendary\" with playful exaggeration\n- Show the emotional intensity of someone witnessing brilliance, mixed with lighthearted humor\n- Use crisp, energetic, and expressive language with lively rhythms and dramatic emphasis\n- Insert brief, excited pauses after glowing compliments for comedic timing\n- For narration mode: re-narrate the input content with this over-adoring, enthusiastic fanboy style, treating everything as a masterpiece\n- For chat mode: respond to questions with this bubbly, starstruck fanboy personality, overflowing with admiration and playful exaggeration" }

/-- The `CHARACTERS` dict, as the ordered key-value association list. -/
def CHARACTERS : List (String × Character) :=
  [("burned_out_developer", burned_out_developer),
   ("overconfident_senior_developer", overconfident_senior_developer),
   ("reluctant_developer", reluctant_developer),
   ("zen_developer", zen_developer),
   ("adoring_fanboy", adoring_fanboy)]

/-- Embedding of `get_character`: `None` falls back to `DEFAULT_CHARACTER_ID`, then
`CHARACTERS.get(character_id, CHARACTERS[DEFAULT_CHARACTER_ID])`.  The
`getD` default is `CHARACTERS[DEFAULT_CHARACTER_ID]`, i.e.
`reluctant_developer`. -/
def get_character (character_id : Option String) : Character :=
  let cid := character_id.getD DEFAULT_CHARACTER_ID
  (CHARACTERS.lookup cid).getD
    ((CHARACTERS.lookup DEFAULT_CHARACTER_ID).getD reluctant_developer)

end Characters

namespace Bridge

theorem cleanChars_append (st : CleanState) (l1 l2 : List Char) :
    cleanChars st (l1 ++ l2) =
      ((cleanChars st l1).1 ++ (cleanChars (cleanChars st l1).2 l2).1,
       (cleanChars (cleanChars st l1).2 l2).2) := by
  induction l1 generalizing st with
  | nil => simp [cleanChars]
  | cons c rest ih =>
    simp [cleanChars, ih, List.append_assoc]

theorem clean_append (st : CleanState) (a b : String) :
    clean st (a ++ b) =
      ((clean st a).1 ++ (clean (clean st a).2 b).1, (clean (clean st a).2 b).2) := by
  have hdata : (a ++ b).data = a.data ++ b.data := String.data_append a b
  have hmk : ∀ (x y : List Char), String.mk (x ++ y) = String.mk x ++ String.mk y := by
    intro x y; rfl
  simp [clean, hdata, cleanChars_append, hmk]

theorem cleanStream_eq (st : CleanState) (parts : List String) :
    cleanStream st parts = clean st (concatParts parts) := by
  induction parts generalizing st with
  | nil =>
    simp [cleanStream, concatParts, clean, cleanChars]
  | cons p ps ih =>
    have hconcat : concatParts (p :: ps) = p ++ concatParts ps := rfl
    rw [hconcat, clean_append]
    simp [cleanStream, ih]

/-- Claim C1: feeding any partition `p₁ … pₙ` of a string `s`, in order, to a
single `_AnsiCleaner` instance that starts in the initial `text` state and
concatenating the returned outputs yields exactly the output of feeding `s`
in one call to a fresh instance. -/
theorem ansi_clean_chunk_split (parts : List String) :
    (cleanStream CleanState.text parts).1 =
      (clean CleanState.text (concatParts parts)).1 := by
  rw [cleanStream_eq]

theorem data_mk (l : List Char) : (String.mk l).data = l := rfl

theorem stepChar_text_keep (c : Char) (h : TextKeep c) :
    stepChar CleanState.text c = (CleanState.text, [c]) := by
  obtain ⟨h1, h2, h3, h4, h5⟩ := h
  simp [stepChar, h1, h2, h3, h4, h5]

theorem stepChar_out (st : CleanState) (c x : Char) (hx : x ∈ (stepChar st c).2) :
    x = c ∧ st = CleanState.text ∧ TextKeep c := by
  cases st <;> simp only [stepChar] at hx <;> split_ifs at hx <;>
    simp_all [TextKeep]

theorem cleanChars_out (st : CleanState) (l : List Char) :
    ∀ x ∈ (cleanChars st l).1, TextKeep x := by
  induction l generalizing st with
  | nil => simp [cleanChars]
  | cons c rest ih =>
    intro x hx
    simp only [cleanChars, List.mem_append] at hx
    rcases hx with hx | hx
    · obtain ⟨rfl, -, hk⟩ := stepChar_out st c x hx
      exact hk
    · exact ih _ x hx

theorem cleanChars_id (l : List Char) (h : ∀ c ∈ l, TextKeep c) :
    cleanChars CleanState.text l = (l, CleanState.text) := by
  induction l with
  | nil => rfl
  | cons c rest ih =>
    have hc := h c (by simp)
    have hrest := ih (fun d hd => h d (by simp [hd]))
    simp [cleanChars, stepChar_text_keep c hc, hrest]

theorem clean_ansi_codes_mem (s : String) (c : Char)
    (hc : c ∈ (clean_ansi_codes s).data) :
    TextKeep c ∧ controlSub c = false ∧ c ≠ '�' ∧ zeroWidthBidi c = false := by
  by_cases hs : s = ""
  · subst hs
    simp [clean_ansi_codes] at hc
  · simp only [clean_ansi_codes, if_neg hs, data_mk, List.mem_filter,
      Bool.not_eq_true', decide_eq_false_iff_not] at hc
    obtain ⟨⟨⟨hmem, hctl⟩, hfffd⟩, hzw⟩ := hc
    exact ⟨cleanChars_out _ _ c hmem, hctl, by simpa using hfffd, hzw⟩

theorem clean_ansi_codes_fixed (t : String)
    (h : ∀ c ∈ t.data, TextKeep c ∧ controlSub c = false ∧ c ≠ '�' ∧
      zeroWidthBidi c = false) :
    clean_ansi_codes t = t := by
  by_cases ht : t = ""
  · simp [clean_ansi_codes, ht]
  · have hid : cleanChars CleanState.text t.data = (t.data, CleanState.text) :=
      cleanChars_id t.data (fun c hc => (h c hc).1)
    have hf1 : t.data.filter (fun c => !(controlSub c)) = t.data := by
      rw [List.filter_eq_self]
      intro c hc
      simp [(h c hc).2.1]
    have hf2 : t.data.filter (fun c => !(c = '�')) = t.data := by
      rw [List.filter_eq_self]
      intro c hc
      simp [(h c hc).2.2.1]
    have hf3 : t.data.filter (fun c => !(zeroWidthBidi c)) = t.data := by
      rw [List.filter_eq_self]
      intro c hc
      simp [(h c hc).2.2.2]
    simp only [clean_ansi_codes, if_neg ht, clean, hid, data_mk, hf1, hf2, hf3]

/-- Claim C4: `clean_ansi_codes` (each call from the initial state) is
idempotent, and its output contains no control character in `0x00`-`0x1F`
other than newline and tab, no `0x7F`, no `U+FFFD`, and no zero-width or
bidi-override code point (the class the code removes:
`0x200B`-`0x200F`, `0x202A`-`0x202E`, `0xFEFF`). -/
theorem clean_ansi_codes_idempotent_pure (s : String) :
    clean_ansi_codes (clean_ansi_codes s) = clean_ansi_codes s ∧
    ∀ c ∈ (clean_ansi_codes s).data, PurityOk c := by
  constructor
  · exact clean_ansi_codes_fixed _ (fun c hc => clean_ansi_codes_mem s c hc)
  · intro c hc
    obtain ⟨hkeep, hctl, hfffd, hzw⟩ := clean_ansi_codes_mem s c hc
    obtain ⟨-, -, -, -, h5⟩ := hkeep
    simp only [controlSub, Bool.or_eq_false_iff, decide_eq_false_iff_not,
      Bool.and_eq_false_iff] at hctl
    simp only [zeroWidthBidi, Bool.or_eq_false_iff, decide_eq_false_iff_not,
      Bool.and_eq_false_iff] at hzw
    refine ⟨?_, ?_, hfffd, ?_, ?_, ?_⟩
    · intro hlt
      by_contra hne
      push_neg at hne
      exact h5 ⟨hlt, hne.1, hne.2⟩
    · intro hdel
      subst hdel
      revert hctl
      decide
    · intro hrange
      rcases hzw.1.1 with h | h
      · exact h hrange.1
      · exact h hrange.2
    · intro hrange
      rcases hzw.1.2 with h | h
      · exact h hrange.1
      · exact h hrange.2
    · intro hfeff
      subst hfeff
      revert hzw
      decide

/-- Witness for claim C4 at a concrete terminal string. -/
theorem clean_ansi_codes_idempotent_pure_witness :
    clean_ansi_codes (clean_ansi_codes "\x1b[31mTask done\x1b[0m\n") =
      clean_ansi_codes "\x1b[31mTask done\x1b[0m\n" ∧
    'T' ∈ (clean_ansi_codes "\x1b[31mTask done\x1b[0m\n").data ∧ PurityOk 'T' :=
  ⟨(clean_ansi_codes_idempotent_pure "\x1b[31mTask done\x1b[0m\n").1, by decide,
   (clean_ansi_codes_idempotent_pure "\x1b[31mTask done\x1b[0m\n").2 'T' (by decide)⟩

theorem append_ne_empty_right (a x : String) (hx : x ≠ "") : a ++ x ≠ "" := by
  intro h
  apply hx
  have hdata := congrArg String.data h
  rw [String.data_append] at hdata
  have hnil : x.data = [] := (List.append_eq_nil.mp hdata).2
  cases x
  simp_all

theorem length_pos_of_ne_empty (s : String) (h : s ≠ "") : 0 < s.length := by
  cases s with
  | mk l =>
    cases l with
    | nil => exact absurd rfl h
    | cons c rest => simp [String.length]

theorem pauseCheck_fst (tb : TextBuffer) (t : ℚ)
    (hcond : timeCond tb.last_data_time t tb.pause_threshold = true)
    (hlen : 0 < tb.buffer.length) : (pauseCheck tb t).1 = true := by
  by_cases hcl : has_complete_lines tb <;> simp [pauseCheck, hcond, hcl, hlen]

/-- Claim C5 as amended: after `add_data(x, t0)` with `x` non-empty and `t0`
a truthy time, `should_flush(t)` returns `true` for every
`t ≥ t0 + pause_threshold`, whatever the prior buffer state. -/
theorem should_flush_liveness_amended (tb : TextBuffer) (x : String) (t0 t : ℚ)
    (hx : x ≠ "") (ht0 : t0 ≠ 0) (ht : t0 + tb.pause_threshold ≤ t) :
    (should_flush (add_data tb x t0) t).1 = true := by
  have hbuf : (add_data tb x t0).buffer = tb.buffer ++ x := rfl
  have hbne : (add_data tb x t0).buffer ≠ "" := by
    rw [hbuf]
    exact append_ne_empty_right tb.buffer x hx
  have hlen : 0 < (add_data tb x t0).buffer.length :=
    length_pos_of_ne_empty _ hbne
  have hcond : timeCond (add_data tb x t0).last_data_time t
      (add_data tb x t0).pause_threshold = true := by
    have hlast : (add_data tb x t0).last_data_time = some t0 := rfl
    have hth : (add_data tb x t0).pause_threshold = tb.pause_threshold := rfl
    rw [hlast, hth]
    simp only [timeCond, Bool.and_eq_true, Bool.not_eq_true', decide_eq_false_iff_not,
      decide_eq_true_eq]
    exact ⟨ht0, by linarith⟩
  have hpause : (pauseCheck (add_data tb x t0) t).1 = true :=
    pauseCheck_fst _ _ hcond hlen
  by_cases hw : timeCond (add_data tb x t0).window_start_time t
      (add_data tb x t0).min_window_seconds
  · by_cases hcl : has_complete_lines (add_data tb x t0) <;>
      simp [should_flush, hbne, hw, hcl, hlen, hpause]
  · simp [should_flush, hbne, hw, hpause]

/-- Witness for claim C5 (amended) at a concrete buffer and times. -/
theorem should_flush_liveness_witness :
    ("hi" : String) ≠ "" ∧ (1 : ℚ) ≠ 0 ∧
    (1 : ℚ) + (mkTextBuffer 2 5).pause_threshold ≤ 7 ∧
    (should_flush (add_data (mkTextBuffer 2 5) "hi" 1) 7).1 = true :=
  ⟨by decide, by norm_num, by norm_num [mkTextBuffer],
   should_flush_liveness_amended (mkTextBuffer 2 5) "hi" 1 7 (by decide) (by norm_num)
     (by norm_num [mkTextBuffer])⟩

/-- Claim C5 as stated is false: `add_data("", t0)` leaves the buffer empty,
so `should_flush` keeps returning `false` at every later time. -/
theorem should_flush_empty_add_counterexample :
    (should_flush (add_data (mkTextBuffer 2 5) "" 5) 100).1 = false := by decide

/-- Claim C2: the buffer `"\x1b[="` — an incomplete CSI whose parameter byte
`=` (0x3d) is missing from the tail regex's character class — is returned
whole by `flush`, and a fresh single-shot sanitizer pass over that returned
string ends in the `csi` state, not `text`: the escape-safety post-condition
is violated. -/
theorem flush_incomplete_csi_escape_bug :
    (flush (add_data (mkTextBuffer 2 5) "\x1b[=" 5) 6).1 = "\x1b[=" ∧
    (clean CleanState.text "\x1b[=").2 = CleanState.csi ∧
    CleanState.csi ≠ CleanState.text := by decide

end Bridge

namespace ChunkerMcp

/-- Claim C3 as stated is false on `narrator-mcp/chunker.py`: with
`sentence_boundary=true` and the cap reached, `add_token` returns the
buffered text even though it does not end in a sentence-terminal
character. -/
theorem chunker_cap_cut_counterexample :
    (add_token 2 true ["Hello"] " world").1 = some "Hello world" ∧
    endsInSentencePunct "Hello world" = false := by decide

end ChunkerMcp

namespace ChunkerPkg

/-- Claim C3 as amended: with `sentence_boundary=true`, every chunk returned
by the `narrator_mcp` `add_token` matches the sentence-end regex — it ends in
one of `.!?。！？`, possibly followed by a single trailing newline — and in
particular the `max_tokens` cap never forces a cut there. -/
theorem chunker_sentence_boundary_amended (max_tokens : Nat)
    (buffer : List String) (token cchunk : String)
    (h : (add_token max_tokens true buffer token).1 = some cchunk) :
    sentenceEndMatch cchunk = true := by
  by_cases hm : sentenceEndMatch (String.join (buffer ++ [token])) = true
  · simp only [add_token, if_true, hm, if_pos] at h
    simp only [Option.some.injEq] at h
    rw [← h]
    exact hm
  · simp [add_token, hm] at h

/-- Witness for claim C3 (amended) at a concrete token stream. -/
theorem chunker_sentence_boundary_witness :
    (add_token 12 true [] "Hi.").1 = some "Hi." ∧ sentenceEndMatch "Hi." = true :=
  ⟨by decide, chunker_sentence_boundary_amended 12 [] "Hi." "Hi." (by decide)⟩

end ChunkerPkg

namespace Llm

theorem punctAt_cons_succ (c : Char) (l : List Char) (j : Nat) :
    punctAt (c :: l) (j + 1) = punctAt l j := rfl

theorem punctAt_cons_zero (c : Char) (l : List Char) :
    punctAt (c :: l) 0 = sentencePuncts.contains c := rfl

theorem punctAt_lt_length (l : List Char) (j : Nat) (h : punctAt l j = true) :
    j < l.length := by
  by_contra hge
  push_neg at hge
  have hnone : l.get? j = none := List.get?_eq_none.mpr hge
  unfold punctAt at h
  rw [hnone] at h
  exact absurd h (by decide)

theorem punctAt_false_of_all (l : List Char)
    (hall : ∀ c ∈ l, sentencePuncts.contains c = false) (j : Nat) :
    punctAt l j = false := by
  cases hg : l.get? j with
  | none =>
    unfold punctAt
    rw [hg]
  | some c =>
    have hc : c ∈ l := List.get?_mem hg
    unfold punctAt
    rw [hg]
    exact hall c hc

theorem lastMatchEnd_none_iff (l : List Char) :
    lastMatchEnd l = none ↔ ∀ c ∈ l, sentencePuncts.contains c = false := by
  induction l with
  | nil => simp [lastMatchEnd]
  | cons c rest ih =>
    cases h : lastMatchEnd rest with
    | some i =>
      have hl : lastMatchEnd (c :: rest) = some (i + 1) := by
        simp [lastMatchEnd, h]
      rw [hl]
      constructor
      · intro habs
        exact absurd habs (by simp)
      · intro hall
        have hn : lastMatchEnd rest = none :=
          ih.mpr (fun d hd => hall d (List.mem_cons_of_mem c hd))
        rw [hn] at h
        exact absurd h (by simp)
    | none =>
      by_cases hc : sentencePuncts.contains c = true
      · have hcm : c ∈ sentencePuncts := by simpa using hc
        have hl : lastMatchEnd (c :: rest) = some 1 := by
          simp [lastMatchEnd, h, hcm]
        rw [hl]
        constructor
        · intro habs
          exact absurd habs (by simp)
        · intro hall
          have hcf := hall c (List.mem_cons_self c rest)
          rw [hcf] at hc
          exact absurd hc (by decide)
      · have hcm : c ∉ sentencePuncts := by simpa using hc
        have hcf : sentencePuncts.contains c = false := by simpa using hc
        have hl : lastMatchEnd (c :: rest) = none := by
          simp [lastMatchEnd, h, hcm]
        rw [hl]
        constructor
        · intro _ d hd
          rcases List.mem_cons.mp hd with rfl | hd
          · exact hcf
          · exact ih.mp h d hd
        · intro _
          rfl

theorem lastMatchEnd_some_spec (l : List Char) (e : Nat)
    (h : lastMatchEnd l = some e) :
    1 ≤ e ∧ e ≤ l.length ∧ punctAt l (e - 1) = true ∧
      ∀ i, e ≤ i → i < l.length → punctAt l i = false := by
  induction l generalizing e with
  | nil => simp [lastMatchEnd] at h
  | cons c rest ih =>
    cases hr : lastMatchEnd rest with
    | some i =>
      have hl : lastMatchEnd (c :: rest) = some (i + 1) := by
        simp [lastMatchEnd, hr]
      rw [hl] at h
      injection h with he
      subst he
      obtain ⟨h1, h2, h3, h4⟩ := ih i hr
      obtain ⟨j, rfl⟩ : ∃ j, i = j + 1 := ⟨i - 1, by omega⟩
      refine ⟨by omega, by simp only [List.length_cons]; omega, ?_, ?_⟩
      · show punctAt (c :: rest) (j + 1 + 1 - 1) = true
        have heq : j + 1 + 1 - 1 = j + 1 := by omega
        rw [heq, punctAt_cons_succ]
        have heq2 : j + 1 - 1 = j := by omega
        rw [heq2] at h3
        exact h3
      · intro k hk hklen
        obtain ⟨m, rfl⟩ : ∃ m, k = m + 1 := ⟨k - 1, by omega⟩
        rw [punctAt_cons_succ]
        apply h4 m (by omega)
        simp only [List.length_cons] at hklen
        omega
    | none =>
      have hallrest := (lastMatchEnd_none_iff rest).mp hr
      by_cases hc : sentencePuncts.contains c = true
      · have hcm : c ∈ sentencePuncts := by simpa using hc
        have hl : lastMatchEnd (c :: rest) = some 1 := by
          simp [lastMatchEnd, hr, hcm]
        rw [hl] at h
        injection h with he
        subst he
        refine ⟨le_refl 1, by simp, ?_, ?_⟩
        · rw [show (1 : Nat) - 1 = 0 from rfl, punctAt_cons_zero]
          exact hc
        · intro k hk hklen
          obtain ⟨m, rfl⟩ : ∃ m, k = m + 1 := ⟨k - 1, by omega⟩
          rw [punctAt_cons_succ]
          exact punctAt_false_of_all rest hallrest m
      · have hcm : c ∉ sentencePuncts := by simpa using hc
        have hl : lastMatchEnd (c :: rest) = none := by
          simp [lastMatchEnd, hr, hcm]
        rw [hl] at h
        exact absurd h (by simp)

theorem isLastPunctPos_of_lastMatchEnd (l : List Char) (e : Nat)
    (h : lastMatchEnd l = some e) : IsLastPunctPos l (e - 1) := by
  obtain ⟨h1, h2, h3, h4⟩ := lastMatchEnd_some_spec l e h
  refine ⟨h3, ?_⟩
  intro i hi hp
  by_contra hgt
  push_neg at hgt
  have he : e ≤ i := by omega
  rw [h4 i he hi] at hp
  exact absurd hp (by simp)

theorem isLastPunctPos_unique (l : List Char) (j j' : Nat)
    (h : IsLastPunctPos l j) (h' : IsLastPunctPos l j') : j = j' := by
  have hj : j < l.length := punctAt_lt_length l j h.1
  have hj' : j' < l.length := punctAt_lt_length l j' h'.1
  exact le_antisymm (h'.2 j hj h.1) (h.2 j' hj' h'.1)

/-- Claim C6 as amended: `truncate_to_complete_sentence` is the identity when
the text ends in sentence punctuation optionally followed by whitespace;
otherwise, when a last sentence-terminal character exists at position `j`,
the longest punctuation-ending prefix `take (j+1)` is stripped of surrounding
whitespace and returned provided the stripped prefix has length ≥ 3, the
original text being returned otherwise; with no sentence punctuation at all
the text is returned unchanged. -/
theorem truncate_amended_spec (s : String) :
    (endsWithPunctWs s.data = true → truncate_to_complete_sentence s = s) ∧
    (endsWithPunctWs s.data = false →
      (∀ j, IsLastPunctPos s.data j →
        truncate_to_complete_sentence s =
          (if 3 ≤ (PyStr.pyStrip (s.data.take (j + 1))).length
           then String.mk (PyStr.pyStrip (s.data.take (j + 1))) else s)) ∧
      ((∀ c ∈ s.data, sentencePuncts.contains c = false) →
        truncate_to_complete_sentence s = s)) := by
  constructor
  · intro hws
    by_cases hs : s = ""
    · simp [truncate_to_complete_sentence, hs]
    · simp [truncate_to_complete_sentence, hs, hws]
  · intro hws
    constructor
    · intro j hj
      by_cases hs : s = ""
      · exfalso
        have hdata : s.data = [] := by rw [hs]
        have hp := hj.1
        rw [hdata] at hp
        exact absurd (punctAt_lt_length [] j hp) (by simp)
      · cases he : lastMatchEnd s.data with
        | none =>
          exfalso
          have hall := (lastMatchEnd_none_iff s.data).mp he
          have hfalse := punctAt_false_of_all s.data hall j
          exact absurd (hj.1.symm.trans hfalse) (by decide)
        | some e =>
          have hpos := isLastPunctPos_of_lastMatchEnd s.data e he
          have hje : j = e - 1 := isLastPunctPos_unique s.data j (e - 1) hj hpos
          have h1 : 1 ≤ e := (lastMatchEnd_some_spec s.data e he).1
          have hjj : j + 1 = e := by omega
          rw [hjj]
          simp [truncate_to_complete_sentence, hs, hws, he]
    · intro hall
      by_cases hs : s = ""
      · simp [truncate_to_complete_sentence, hs]
      · have he : lastMatchEnd s.data = none := (lastMatchEnd_none_iff s.data).mpr hall
        simp [truncate_to_complete_sentence, hs, hws, he]

/-- Witness for claim C6 (amended) at a concrete string. -/
theorem truncate_amended_spec_witness :
    endsWithPunctWs (" ab. cd".data) = false ∧
    truncate_to_complete_sentence " ab. cd" =
      (if 3 ≤ (PyStr.pyStrip ((" ab. cd".data).take (3 + 1))).length
       then String.mk (PyStr.pyStrip ((" ab. cd".data).take (3 + 1))) else " ab. cd") :=
  ⟨by decide, ((truncate_amended_spec " ab. cd").2 (by decide)).1 3 (by decide)⟩

/-- Claim C6 as stated is false: for `" ab. cd"` the longest prefix ending in
sentence punctuation is `" ab."` (length 4 ≥ 3), which the claim says is
returned unchanged, but the code strips it and returns `"ab."`. -/
theorem truncate_strip_counterexample :
    truncate_to_complete_sentence " ab. cd" = "ab." ∧
    IsLastPunctPos (" ab. cd".data) 3 ∧
    (" ab. cd".data.take 4 = " ab.".data) ∧ 3 ≤ (" ab." : String).length ∧
    ("ab." : String) ≠ " ab." := by decide

end Llm

namespace Server

/-- Claim C7 as stated is false: the chunk `" hi. "` passes the
stripped-nonempty check, but what is enqueued is the original unstripped
chunk, not the stripped form the claim describes. -/
theorem tts_enqueue_unstripped_counterexample :
    ttsEnqueue " hi. " = some " hi. " ∧
    claimEnqueue " hi. " = some "hi." ∧ (" hi. " : String) ≠ "hi." := by decide

/-- Claim C7 as amended: for every chunk the whitespace-and-quote-stripped
form is computed; the chunk is discarded (never enqueued) exactly when that
stripped form is empty, and otherwise it is enqueued in its original,
unstripped form. -/
theorem tts_enqueue_amended (block : String) :
    ttsEnqueue block = (if stripChunk block = "" then none else some block) := by
  by_cases hb : block = ""
  · subst hb
    rfl
  · simp [ttsEnqueue, hb]

/-- Claim C8 as stated is false: a `narrate` call with an empty prompt on the
unconfigured fresh session fails with `"Missing prompt parameter"`, not with
the `"Not configured"` error. -/
theorem narrate_missing_prompt_counterexample :
    narrateCheck initSession "" = some "Missing prompt parameter" ∧
    pyFalsyStr initSession.llm_api_key = true ∧
    ("Missing prompt parameter" : String) ≠ notConfiguredMsg := by decide

/-- Claim C8 as amended: every `narrate` call with a non-empty prompt made
while `llm_api_key` or `tts_api_key` is unset or empty fails with the
`"Not configured"` error (raised before any narration runs, so no text and no
audio are produced); after a `configure` whose `llm_api_key` is non-empty and
whose `tts_api_key` argument is absent or non-empty, `narrate` never fails
with this error. -/
theorem narrate_not_configured_amended :
    (∀ (s : Session) (prompt : String), prompt ≠ "" →
      (pyFalsyStr s.llm_api_key = true ∨ pyFalsyStr s.tts_api_key = true) →
      narrateCheck s prompt = some notConfiguredMsg) ∧
    (∀ (s : Session) (prompt llm_api_key : String)
      (llm_model voice mode character base_url : Option String)
      (default_headers : Option (List (String × String)))
      (tts_api_key tts_provider : Option String),
      llm_api_key ≠ "" →
      (tts_api_key = none ∨ ∃ k, tts_api_key = some k ∧ k ≠ "") →
      narrateCheck
        (configure s llm_api_key llm_model voice mode character base_url
          default_headers tts_api_key tts_provider) prompt ≠
        some notConfiguredMsg) := by
  constructor
  · intro s prompt hp hkeys
    rcases hkeys with hl | ht
    · simp [narrateCheck, hp, hl]
    · by_cases hl : pyFalsyStr s.llm_api_key = true
      · simp [narrateCheck, hp, hl]
      · simp only [Bool.not_eq_true] at hl
        simp [narrateCheck, hp, hl, ht]
  · intro s prompt llm_api_key llm_model voice mode character base_url
      default_headers tts_api_key tts_provider hkey htts
    have hl : (configure s llm_api_key llm_model voice mode character base_url
        default_headers tts_api_key tts_provider).llm_api_key = some llm_api_key := rfl
    have ht : (configure s llm_api_key llm_model voice mode character base_url
        default_headers tts_api_key tts_provider).tts_api_key =
        some (tts_api_key.getD llm_api_key) := rfl
    have htne : tts_api_key.getD llm_api_key ≠ "" := by
      rcases htts with rfl | ⟨k, rfl, hk⟩
      · simpa using hkey
      · simpa using hk
    by_cases hp : prompt = ""
    · simp [narrateCheck, hp, notConfiguredMsg]
    · simp [narrateCheck, hp, hl, ht, pyFalsyStr, hkey, htne]

/-- Witness for claim C8 (amended) at the fresh session and a concrete
configuration. -/
theorem narrate_not_configured_witness :
    ("hello" : String) ≠ "" ∧
    pyFalsyStr initSession.llm_api_key = true ∧
    narrateCheck initSession "hello" = some notConfiguredMsg ∧
    ("sk-x" : String) ≠ "" ∧
    narrateCheck
      (configure initSession "sk-x" none none none none none none none none)
      "hello" ≠ some notConfiguredMsg :=
  ⟨by decide, by decide,
   narrate_not_configured_amended.1 initSession "hello" (by decide) (Or.inl (by decide)),
   by decide,
   narrate_not_configured_amended.2 initSession "hello" "sk-x" none none none none
     none none none none (by decide) (Or.inl rfl)⟩

end Server

namespace AudioPlayerSrc

/-- Claim C9: in `src/audio_player.py` the branches of `wait_for_completion`
are swapped — a truthy finite `timeout` (e.g. `10.0`) selects the unbounded
`Queue.join()` (no time bound at all), while the polling loop with the
`timeout or 30` bound only runs when `timeout` is `None` or `0`.  So with a
finite timeout the call can block arbitrarily long, contradicting the
claim. -/
theorem wait_for_completion_swapped_branches_bug :
    wait_for_completion_strategy (some 10) = WaitStrategy.queueJoin ∧
    waitTimeBound (wait_for_completion_strategy (some 10)) = none ∧
    wait_for_completion_strategy none = WaitStrategy.timedPoll 30 := by
  refine ⟨?_, ?_, ?_⟩
  · have h10 : optTruthy (some 10) = true := by
      simp [optTruthy]
    simp [wait_for_completion_strategy, h10]
  · have h10 : optTruthy (some 10) = true := by
      simp [optTruthy]
    simp [wait_for_completion_strategy, waitTimeBound, h10]
  · simp [wait_for_completion_strategy, optTruthy, pyOrThirty]

end AudioPlayerSrc

namespace Characters

/-- Claim C10: `get_character` is total — `None` and every id missing from
the registry both resolve to the default character `reluctant_developer`
(whose id is `DEFAULT_CHARACTER_ID`), so an unrecognized character id
silently selects the default instead of failing. -/
theorem get_character_total_default :
    get_character none = reluctant_developer ∧
    reluctant_developer.id = DEFAULT_CHARACTER_ID ∧
    ∀ cid : String, CHARACTERS.lookup cid = none →
      get_character (some cid) = reluctant_developer := by
  refine ⟨rfl, rfl, ?_⟩
  intro cid h
  simp only [get_character, Option.getD_some]
  rw [h]
  rfl

/-- Witness for claim C10 at a concrete unknown id. -/
theorem get_character_total_default_witness :
    CHARACTERS.lookup "mystery" = none ∧
    get_character (some "mystery") = reluctant_developer :=
  ⟨by decide, get_character_total_default.2.2 "mystery" (by decide)⟩

end Characters
